import Mathlib

/-!
# Verification of the Hulu Data Explorer core logic

Shallow embedding of `src/hulu_data_explorer.py` (a pandas/streamlit
application) and proofs about its normalization, filtering, similarity,
country resolution, tone interpretation, and rating-histogram logic.

Modelling conventions:
* pandas floating-point columns are modelled as `ℚ` (the program's
  arithmetic on them — means, medians, comparisons with literals such as
  `0.5` — is exact on the values involved);
* a missing value (`NaN` in a raw column) is modelled as `Option.none`;
* Python strings are Lean `String`s; `str.strip` / `str.split` / `in`
  (substring) are re-implemented below faithful to Python semantics.
-/

namespace HuluExplorer

/-- Python substring test on character lists: `listPrefixOf n h` is
`True` iff `n` is a prefix of `h` (the empty list is a prefix of
everything, as in Python). -/
def listPrefixOf : List Char → List Char → Bool
  | [], _ => true
  | _ :: _, [] => false
  | a :: as, b :: bs => a == b && listPrefixOf as bs

/-- The test `listInfixOf n h` is `True` iff `n` occurs contiguously inside `h`;
models Python's `n in h` on strings. -/
def listInfixOf (n : List Char) : List Char → Bool
  | [] => listPrefixOf n []
  | c :: cs => listPrefixOf n (c :: cs) || listInfixOf n cs

/-- Python's `needle in hay` substring containment on strings. -/
def strContainsSub (hay needle : String) : Bool :=
  listInfixOf needle.toList hay.toList

/-- Characters removed by Python's `str.strip()` (ASCII whitespace;
the inputs of this program only ever carry these). -/
def isPyWs (c : Char) : Bool :=
  c == ' ' || c == '\t' || c == '\n' || c == '\r'

/-- Drop leading Python whitespace from a character list. -/
def dropLeadingWs : List Char → List Char
  | [] => []
  | c :: cs => if isPyWs c then dropLeadingWs cs else c :: cs

/-- Python's `str.strip()`: remove leading and trailing whitespace. -/
def pyStrip (s : String) : String :=
  ⟨(dropLeadingWs (dropLeadingWs s.toList).reverse).reverse⟩

/-- Splitter for Python's `str.split(',')`, accumulating the current
token in reverse. -/
def splitCommaAux (acc : List Char) : List Char → List (List Char)
  | [] => [acc.reverse]
  | c :: cs =>
    if c == ',' then acc.reverse :: splitCommaAux [] cs
    else splitCommaAux (c :: acc) cs

/-- Python's `code.split(',')`: split on every comma (the empty string
yields `[""]`, adjacent commas yield empty tokens, as in Python). -/
def pySplitComma (s : String) : List String :=
  (splitCommaAux [] s.toList).map (⟨·⟩)

/-- Python's `", ".join(tokens)`. -/
def joinCommaSpace : List String → String
  | [] => ""
  | [s] => s
  | s :: rest => s ++ ", " ++ joinCommaSpace rest

/-- Python's slice `s[:n]`: the first `n` characters of `s`. -/
def pySlice (s : String) (n : Nat) : String :=
  ⟨s.toList.take n⟩

/-- A raw catalog row as parsed from `data.csv`: every repairable column
may be missing (`none` models pandas `NaN`).  Mirrors the columns the
program touches. -/
structure RawRecord where
  title : Option String
  genres : Option String
  releaseYear : Option ℚ
  imdbAverageRating : Option ℚ
  imdbNumVotes : Option ℚ
  availableCountries : Option String
  imdbId : Option String
  type : String
  deriving DecidableEq, Repr

/-- A normalized catalog row, after `load_data`'s cleaning: the repaired
columns are always populated, `releaseYear` is an integer. -/
structure Record where
  title : String
  genres : String
  releaseYear : Int
  imdbAverageRating : ℚ
  imdbNumVotes : Option ℚ
  availableCountries : String
  imdbId : Option String
  type : String
  deriving DecidableEq, Repr

/-- Insert into a sorted list (ascending); used to model pandas sorting
for the median. -/
def insertSorted (x : ℚ) : List ℚ → List ℚ
  | [] => [x]
  | y :: ys => if x ≤ y then x :: y :: ys else y :: insertSorted x ys

/-- Insertion sort, ascending. -/
def sortRat (l : List ℚ) : List ℚ :=
  l.foldr insertSorted []

/-- pandas `Series.mean()` over the present values (sum divided by
count; `0` on an empty list, a case the proofs below never rely on). -/
def meanQ (l : List ℚ) : ℚ :=
  l.sum / l.length

/-- pandas `Series.median()` over the present values: middle element of
the sorted list for odd length, average of the two middle elements for
even length. -/
def medianQ (l : List ℚ) : ℚ :=
  let s := sortRat l
  if l.length % 2 = 1 then s.getD (l.length / 2) 0
  else (s.getD (l.length / 2 - 1) 0 + s.getD (l.length / 2) 0) / 2

/-- numpy's float→int cast used by `astype(int)`: truncation toward
zero, i.e. the T-division of the numerator by the denominator. -/
def ratTruncToInt (q : ℚ) : Int :=
  Int.tdiv q.num q.den

/-- The `releaseYear` values that are present in the raw rows. -/
def presentYears (raws : List RawRecord) : List ℚ :=
  raws.filterMap (·.releaseYear)

/-- The `imdbAverageRating` values that are present in the raw rows. -/
def presentRatings (raws : List RawRecord) : List ℚ :=
  raws.filterMap (·.imdbAverageRating)

/-- One row of `load_data`'s cleaning, given the catalog-wide year
median `medY` and rating mean `meanR`:
`fillna` sentinels for the three string columns, `fillna(median)` then
`astype(int)` for the year, `fillna(mean)` for the rating. -/
def normalizeRecord (medY meanR : ℚ) (r : RawRecord) : Record :=
  { title := r.title.getD "Unknown Title"
    genres := r.genres.getD "Unknown Genre"
    releaseYear := ratTruncToInt (r.releaseYear.getD medY)
    imdbAverageRating := r.imdbAverageRating.getD meanR
    imdbNumVotes := r.imdbNumVotes
    availableCountries := r.availableCountries.getD "Unknown Country"
    imdbId := r.imdbId
    type := r.type }

/-- The column-repair part of `load_data` (lines 12–16 of the source). -/
def normalize (raws : List RawRecord) : List Record :=
  raws.map
    (normalizeRecord (medianQ (presentYears raws)) (meanQ (presentRatings raws)))

/-- The `try` body of `load_data`.  pandas raises inside the `try` exactly
when the year column still holds `NaN` after `fillna` — i.e. when the
catalog is non-empty and *every* `releaseYear` is missing, so that
`median()` is itself `NaN` and `astype(int)` fails on it.  In every
other case the repaired frame is returned. -/
def normalizeE (raws : List RawRecord) : Except Unit (List Record) :=
  if !raws.isEmpty && (presentYears raws).isEmpty then .error ()
  else .ok (normalize raws)

/-- Function `load_data` (lines 9–20): `none` models an unreadable source
(`read_csv` raised).  Returns the catalog together with a flag recording
whether `st.error` was called (the `LoadError` signal). -/
def load_data : Option (List RawRecord) → List Record × Bool
  | none => ([], true)
  | some raws =>
    match normalizeE raws with
    | .ok cat => (cat, false)
    | .error _ => ([], true)

/-- The static code→name table of `get_country_name`. -/
def country_dict : List (String × String) :=
  [("JP", "Japan"), ("US", "United States"), ("CA", "Canada")]

/-- Python `country_dict.get(key, default)`. -/
def dictGet (key : String) (default : String) : String :=
  match country_dict.lookup key with
  | some v => v
  | none => default

/-- Function `get_country_name` (lines 23–30):
`", ".join(country_dict.get(c.strip(), c) for c in code.split(','))`.
Note the lookup key is the *stripped* token but the fallback default is
the *original, unstripped* token. -/
def get_country_name (code : String) : String :=
  joinCommaSpace ((pySplitComma code).map (fun c => dictGet (pyStrip c) c))

/-- Function `interpret_sentiment` (lines 38–44). -/
def interpret_sentiment (sentiment : String) : String :=
  if sentiment == "POSITIVE" then
    "The genre tone suggests a generally enjoyable or light-hearted experience."
  else if sentiment == "NEGATIVE" then
    "The genre tone suggests a more intense, dramatic, or serious theme."
  else
    "The genre tone is neutral or mixed."

/-- Function `get_sentiment` (lines 47–54).  The external classification
collaborator is a parameter that either yields a label or fails; the
function feeds it `genres[:512]` and maps any failure to `none` (after
reporting the error, which has no further observable effect here). -/
def get_sentiment (genres : String) (sentiment_analyzer : String → Except Unit String) :
    Option String :=
  match sentiment_analyzer (pySlice genres 512) with
  | .ok sentiment => some (interpret_sentiment sentiment)
  | .error _ => none

/-- The sidebar filter criteria: the multiselect genre list, the year
slider endpoints, and the minimum-rating slider. -/
structure FilterCriteria where
  genres : List String
  yearMin : Int
  yearMax : Int
  minRating : ℚ
  deriving DecidableEq, Repr

/-- The boolean mask of lines 119–123:
`any(genre in x for genre in genre_filter) if genre_filter else True`,
conjoined with `releaseYear.between(*release_year_range)` (inclusive on
both ends) and `imdbAverageRating >= min_rating`. -/
def recordPasses (c : FilterCriteria) (r : Record) : Bool :=
  (if c.genres.isEmpty then true
   else c.genres.any (fun genre => strContainsSub r.genres genre))
  && (decide (c.yearMin ≤ r.releaseYear) && decide (r.releaseYear ≤ c.yearMax))
  && decide (c.minRating ≤ r.imdbAverageRating)

/-- The filtered frame `filtered_data = data[mask]` of lines 119–123:
row selection by a boolean mask keeps the surviving rows in their
original order. -/
def applyFilters (data : List Record) (c : FilterCriteria) : List Record :=
  data.filter (recordPasses c)

/-- The similar-titles mask and truncation of lines 166–172:
same exact `genres` string, rating at least the anchor's minus `0.5`,
different title; then `head(3)` (`limit` entries). -/
def findSimilar (data : List Record) (sel : Record) (limit : Nat := 3) :
    List Record :=
  (data.filter (fun r =>
      r.genres == sel.genres
      && decide (sel.imdbAverageRating - 0.5 ≤ r.imdbAverageRating)
      && !(r.title == sel.title))).take limit

/-- Lines 151–154: the selected title's rating minus the catalog mean,
reported as `"above average"` when the difference is strictly positive
and `"below average"` otherwise. -/
def ratingComparisonText (data : List Record) (sel : Record) : String :=
  let avg_rating := meanQ (data.map (·.imdbAverageRating))
  let rating_diff := sel.imdbAverageRating - avg_rating
  if rating_diff > 0 then "above average" else "below average"

/-- Minimum of a rating column (`0` only for the empty list, which the
histogram theorems exclude). -/
def colMin : List ℚ → ℚ
  | [] => 0
  | x :: xs => xs.foldl min x

/-- Maximum of a rating column. -/
def colMax : List ℚ → ℚ
  | [] => 0
  | x :: xs => xs.foldl max x

/-- The histogram range used by `ax.hist(..., bins=20)`: the observed
`[min, max]`, expanded by numpy to `[min − 0.5, max + 0.5]` when the
two coincide. -/
def histRange (l : List ℚ) : ℚ × ℚ :=
  let lo := colMin l
  let hi := colMax l
  if lo == hi then (lo - 0.5, hi + 0.5) else (lo, hi)

/-- numpy's bin assignment over `n` equal-width bins on `[lo, hi]`:
bin `i` is `[lo + i·w, lo + (i+1)·w)` with `w = (hi − lo)/n`, except the
last bin which also contains `hi`.  For `x ∈ [lo, hi]` this is
`⌊(x − lo)·n/(hi − lo)⌋` clamped to `n − 1`. -/
def bucketIndex (lo hi : ℚ) (n : Nat) (x : ℚ) : Nat :=
  min (n - 1) (Int.toNat ⌊(x - lo) * n / (hi - lo)⌋)

/-- The left edge of bin `i`. -/
def bucketEdge (lo hi : ℚ) (n : Nat) (i : Nat) : ℚ :=
  lo + i * ((hi - lo) / n)

/-- The per-bin counts of `save_imdb_rating_distribution` (lines
61–72): `ax.hist(ratings, bins=n)` over the observed range. -/
def bucketCounts (l : List ℚ) (n : Nat) : List Nat :=
  (List.range n).map
    (fun i => (l.filter (fun x => bucketIndex (histRange l).1 (histRange l).2 n x = i)).length)

/-- Record `A` of the spec's scenario catalog. -/
def recA : Record :=
  { title := "A", genres := "Drama", releaseYear := 2010,
    imdbAverageRating := 7, imdbNumVotes := none,
    availableCountries := "US", imdbId := none, type := "movie" }

/-- Record `B` of the spec's scenario catalog. -/
def recB : Record :=
  { title := "B", genres := "Drama", releaseYear := 2015,
    imdbAverageRating := 6.8, imdbNumVotes := none,
    availableCountries := "US", imdbId := none, type := "movie" }

/-- Record `C` of the spec's scenario catalog. -/
def recC : Record :=
  { title := "C", genres := "Comedy", releaseYear := 2012,
    imdbAverageRating := 8, imdbNumVotes := none,
    availableCountries := "US", imdbId := none, type := "movie" }

/-- The spec's three-record scenario catalog. -/
def scenarioCatalog : List Record := [recA, recB, recC]

/-- The scenario filter criteria: genres = {"Drama"},
yearRange = (2000, 2020), minRating = 6.5. -/
def scenarioCriteria : FilterCriteria :=
  { genres := ["Drama"], yearMin := 2000, yearMax := 2020, minRating := 6.5 }

/-- The filter predicate as the spec phrases it: the genre set is empty
or some requested genre occurs as a substring of the record's
comma-joined genres string, the release year lies within the range
inclusive on both ends, and the rating is at least the minimum. -/
def passesSpec (c : FilterCriteria) (r : Record) : Prop :=
  (c.genres = [] ∨ ∃ g ∈ c.genres, strContainsSub r.genres g = true) ∧
  (c.yearMin ≤ r.releaseYear ∧ r.releaseYear ≤ c.yearMax) ∧
  c.minRating ≤ r.imdbAverageRating

instance (c : FilterCriteria) (r : Record) : Decidable (passesSpec c r) := by
  unfold passesSpec; infer_instance

/-- The similarity predicate as the spec phrases it: exactly equal
genres string, rating within `0.5` below the anchor's, and a title
different from the anchor's. -/
def similarSpec (sel r : Record) : Prop :=
  r.genres = sel.genres ∧
  sel.imdbAverageRating - 0.5 ≤ r.imdbAverageRating ∧
  r.title ≠ sel.title

instance (sel r : Record) : Decidable (similarSpec sel r) := by
  unfold similarSpec; infer_instance

/-- The mask of lines 119–123 holds exactly when the spec-side filter
predicate does. -/
theorem recordPasses_iff (c : FilterCriteria) (r : Record) :
    recordPasses c r = true ↔ passesSpec c r := by
  rcases hg : c.genres with _ | ⟨g, gs⟩ <;>
    simp [recordPasses, passesSpec, hg, List.any_eq_true, and_assoc]

/-- Function `recordPasses` agrees with the decidable spec-side predicate. -/
theorem recordPasses_eq_passesSpec (c : FilterCriteria) (r : Record) :
    recordPasses c r = decide (passesSpec c r) := by
  rw [Bool.eq_iff_iff, decide_eq_true_eq]
  exact recordPasses_iff c r

/-- C1: confirmed. The Filter Engine returns exactly the order-preserving
subsequence of catalog records satisfying the spec's conjunction
(empty genre set or some requested genre a substring of the record's
comma-joined genres string; release year within the range inclusive on
both ends; rating at least the minimum), and on the three-record
Drama/Drama/Comedy scenario with genres = {"Drama"},
yearRange = (2000, 2020), minRating = 6.5 it returns [A, B]. -/
theorem C1_filter_engine_exact (data : List Record) (c : FilterCriteria) :
    applyFilters data c = data.filter (fun r => decide (passesSpec c r)) ∧
    (applyFilters data c).Sublist data ∧
    applyFilters scenarioCatalog scenarioCriteria = [recA, recB] := by
  refine ⟨?_, List.filter_sublist data, ?_⟩
  · exact List.filter_congr (fun r _ => recordPasses_eq_passesSpec c r)
  · norm_num +decide [applyFilters, recordPasses, scenarioCatalog,
      scenarioCriteria, recA, recB, recC, strContainsSub, listInfixOf,
      listPrefixOf, List.filter_cons, List.filter_nil]

/-- C2: confirmed. The Similarity Matcher returns, in original catalog order
and truncated to `limit` entries, exactly the records with genres
string equal to the anchor's, rating at least the anchor's minus 0.5,
and a title different from the anchor's; when no candidate qualifies it
returns the empty sequence rather than an error. -/
theorem C2_similarity_matcher (data : List Record) (sel : Record) (limit : Nat) :
    findSimilar data sel limit
      = (data.filter (fun r => decide (similarSpec sel r))).take limit ∧
    (findSimilar data sel limit).Sublist data ∧
    (findSimilar data sel limit).length ≤ limit ∧
    ((∀ r ∈ data, ¬ similarSpec sel r) → findSimilar data sel limit = []) := by
  have hmask : ∀ r : Record,
      (r.genres == sel.genres
        && decide (sel.imdbAverageRating - 0.5 ≤ r.imdbAverageRating)
        && !(r.title == sel.title)) = decide (similarSpec sel r) := by
    intro r
    rw [Bool.eq_iff_iff, decide_eq_true_eq]
    simp [similarSpec, and_assoc]
  have hfilter : findSimilar data sel limit
      = (data.filter (fun r => decide (similarSpec sel r))).take limit := by
    unfold findSimilar
    rw [List.filter_congr (fun r _ => hmask r)]
  refine ⟨hfilter, ?_, ?_, ?_⟩
  · unfold findSimilar
    exact (List.take_sublist _ _).trans (List.filter_sublist data)
  · rw [hfilter]
    exact (List.length_take _ _).trans_le (min_le_left _ _)
  · intro hnone
    rw [hfilter, List.filter_eq_nil_iff.mpr
      (fun r hr => by simpa using hnone r hr), List.take_nil]

/-- Witness for C2: over the one-record catalog `[A]` with anchor `A`
itself, no candidate qualifies (the anchor is excluded by its own
title) and the matcher returns the empty sequence. -/
theorem C2_similarity_matcher_witness :
    findSimilar [recA] recA 3 = [] := by
  refine (C2_similarity_matcher [recA] recA 3).2.2.2 ?_
  intro r hr
  simp only [List.mem_singleton] at hr
  subst hr
  simp [similarSpec]

/-- C6: confirmed. The Tone Interpreter is pure and total: "POSITIVE" maps to
the enjoyable/light-hearted description, "NEGATIVE" to the
intense/dramatic/serious one, and every other label — including the
unrecognized "NEUTRAL" — to the neutral-or-mixed description.
(Determinism is immediate: `interpret_sentiment` is a function of the
label alone.) -/
theorem C6_tone_interpreter (s : String)
    (h1 : s ≠ "POSITIVE") (h2 : s ≠ "NEGATIVE") :
    interpret_sentiment s = "The genre tone is neutral or mixed." ∧
    interpret_sentiment "POSITIVE"
      = "The genre tone suggests a generally enjoyable or light-hearted experience." ∧
    interpret_sentiment "NEGATIVE"
      = "The genre tone suggests a more intense, dramatic, or serious theme." ∧
    interpret_sentiment "NEUTRAL" = "The genre tone is neutral or mixed." := by
  refine ⟨?_, rfl, rfl, rfl⟩
  simp [interpret_sentiment, h1, h2]

/-- Witness for C6 at the unrecognized label "NEUTRAL". -/
theorem C6_tone_interpreter_witness :
    ("NEUTRAL" : String) ≠ "POSITIVE" ∧ ("NEUTRAL" : String) ≠ "NEGATIVE" ∧
    interpret_sentiment "NEUTRAL" = "The genre tone is neutral or mixed." :=
  ⟨by decide, by decide,
    (C6_tone_interpreter "NEUTRAL" (by decide) (by decide)).1⟩

/-- C4 counterexample: Resolving " US, jp " does *not* yield
"United States, Japan": the lookup key is the stripped token but the
table is case-sensitive ("jp" ≠ "JP"), so the unknown token " jp "
passes through in its original, unstripped form and the result is
"United States,  jp ". -/
theorem C4_country_resolver_counterexample :
    get_country_name " US, jp " = "United States,  jp " ∧
    get_country_name " US, jp " ≠ "United States, Japan" :=
  ⟨by decide, by decide⟩

/-- C4 amended: The Country Resolver splits on commas, strips each
token *for the lookup only*, replaces tokens whose stripped form is a
key of the (case-sensitive) table with the display name, passes other
tokens through as their original unstripped text, and rejoins with
", ". Hence " US, JP " resolves to "United States, Japan", while the
lowercase " US, jp " yields "United States,  jp ". -/
theorem C4_country_resolver_amended (code : String) :
    get_country_name code
      = joinCommaSpace ((pySplitComma code).map (fun c =>
          match country_dict.lookup (pyStrip c) with
          | some name => name
          | none => c)) ∧
    get_country_name " US, JP " = "United States, Japan" ∧
    get_country_name " US, jp " = "United States,  jp " ∧
    get_country_name " US " = "United States" :=
  ⟨rfl, by decide, by decide, by decide⟩

/-- C7: confirmed. Tone analysis passes at most the first 512 characters of
the genre string to the external classification collaborator (the
argument is exactly `genres[:512]`), and when the collaborator call
fails it reports the error and returns `none` — an absent value,
distinct from the neutral description. -/
theorem C7_sentiment_truncation_and_failure
    (genres : String) (analyzer : String → Except Unit String) (e : Unit)
    (h : analyzer (pySlice genres 512) = .error e) :
    (pySlice genres 512).toList.length ≤ 512 ∧
    (pySlice genres 512).toList = genres.toList.take 512 ∧
    get_sentiment genres analyzer = none ∧
    get_sentiment genres analyzer ≠ some "The genre tone is neutral or mixed." := by
  refine ⟨?_, rfl, ?_, ?_⟩
  · show (genres.toList.take 512).length ≤ 512
    rw [List.length_take]
    exact min_le_left _ _
  · simp [get_sentiment, h]
  · simp [get_sentiment, h]

/-- Witness for C7: a collaborator that always fails makes
`get_sentiment` return `none` on the genre string "Drama". -/
theorem C7_sentiment_truncation_and_failure_witness :
    ((fun _ => (Except.error () : Except Unit String)) (pySlice "Drama" 512)
      = Except.error ()) ∧
    get_sentiment "Drama" (fun _ => Except.error ()) = none :=
  ⟨rfl, (C7_sentiment_truncation_and_failure "Drama"
    (fun _ => Except.error ()) () rfl).2.2.1⟩

/-- C10: confirmed. When the selected title's rating equals the catalog-wide
mean exactly (zero difference), the comparison reports "below
average"; "above average" is reported exactly for a strictly positive
difference. -/
theorem C10_rating_comparison_at_mean (data : List Record) (sel : Record)
    (h : sel.imdbAverageRating = meanQ (data.map (·.imdbAverageRating))) :
    ratingComparisonText data sel = "below average" ∧
    ∀ (d : List Record) (s : Record),
      (ratingComparisonText d s = "above average"
        ↔ meanQ (d.map (·.imdbAverageRating)) < s.imdbAverageRating) := by
  constructor
  · unfold ratingComparisonText
    rw [if_neg]
    rw [h]
    simp
  · intro d s
    unfold ratingComparisonText
    constructor
    · intro habove
      by_contra hle
      rw [if_neg (by simpa [sub_pos] using hle)] at habove
      exact absurd habove (by decide)
    · intro hlt
      rw [if_pos (by simpa [sub_pos] using hlt)]

/-- Witness for C10: in the one-record catalog `[A]` the mean is `A`'s
own rating, and the comparison for `A` reports "below average". -/
theorem C10_rating_comparison_at_mean_witness :
    recA.imdbAverageRating = meanQ ([recA].map (·.imdbAverageRating)) ∧
    ratingComparisonText [recA] recA = "below average" :=
  ⟨by norm_num [meanQ, recA],
    (C10_rating_comparison_at_mean [recA] recA (by norm_num [meanQ, recA])).1⟩

/-- Re-reading an already-normalized record: every repairable column is
present.  The integer year is presented back as the rational value the
frame would hold. -/
def toRaw (r : Record) : RawRecord :=
  { title := some r.title
    genres := some r.genres
    releaseYear := some (r.releaseYear : ℚ)
    imdbAverageRating := some r.imdbAverageRating
    imdbNumVotes := r.imdbNumVotes
    availableCountries := some r.availableCountries
    imdbId := r.imdbId
    type := r.type }

/-- An already-normalized catalog, viewed again as raw input. -/
def catalogToRaw (cat : List Record) : List RawRecord :=
  cat.map toRaw

/-- Truncating an integer-valued rational returns that integer. -/
theorem ratTruncToInt_intCast (n : Int) : ratTruncToInt ((n : ℚ)) = n := by
  unfold ratTruncToInt
  rw [Rat.intCast_num, Rat.intCast_den]
  simp [Int.tdiv_one]

/-- Normalizing an already-normalized record changes nothing (the
median and mean fallbacks are never consulted). -/
theorem normalizeRecord_toRaw (m μ : ℚ) (r : Record) :
    normalizeRecord m μ (toRaw r) = r := by
  cases r
  simp [normalizeRecord, toRaw, ratTruncToInt_intCast]

/-- Normalizing an already-normalized catalog changes nothing. -/
theorem normalize_catalogToRaw (cat : List Record) :
    normalize (catalogToRaw cat) = cat := by
  unfold normalize catalogToRaw
  rw [List.map_map]
  exact List.map_congr_left (fun r _ => normalizeRecord_toRaw _ _ r) |>.trans
    (List.map_id cat)

/-- C3: confirmed. Row by row, normalization fills a missing title, genres and
availableCountries with the sentinels "Unknown Title", "Unknown Genre"
and "Unknown Country", fills a missing releaseYear with the
catalog-wide median of the present years cast to integer by truncation
(and truncates present years likewise, as `astype(int)` does), and
fills a missing imdbAverageRating with the catalog-wide mean of the
present ratings; present values are kept.  The hypotheses keep the
median and mean over non-empty value lists, the regime the claim
speaks about (with *no* present year pandas raises instead, see C5).
After normalization `releaseYear : Int` and `imdbAverageRating : ℚ` by
the type of `Record`. -/
theorem C3_normalization_fields (raws : List RawRecord)
    (hy : presentYears raws ≠ []) (hr : presentRatings raws ≠ []) :
    List.Forall₂ (fun (r : RawRecord) (n : Record) =>
      n.title = r.title.getD "Unknown Title" ∧
      n.genres = r.genres.getD "Unknown Genre" ∧
      n.availableCountries = r.availableCountries.getD "Unknown Country" ∧
      (r.releaseYear = none →
        n.releaseYear = ratTruncToInt (medianQ (presentYears raws))) ∧
      (∀ y, r.releaseYear = some y → n.releaseYear = ratTruncToInt y) ∧
      (r.imdbAverageRating = none →
        n.imdbAverageRating = meanQ (presentRatings raws)) ∧
      (∀ q, r.imdbAverageRating = some q → n.imdbAverageRating = q))
      raws (normalize raws) := by
  unfold normalize
  rw [List.forall₂_map_right_iff, List.forall₂_same]
  rintro r -
  refine ⟨rfl, rfl, rfl, ?_, ?_, ?_, ?_⟩
  · intro h; simp [normalizeRecord, h]
  · intro y h; simp [normalizeRecord, h]
  · intro h; simp [normalizeRecord, h]
  · intro q h; simp [normalizeRecord, h]

/-- A raw row with every field present (used as witness input). -/
def rawP : RawRecord :=
  { title := some "A", genres := some "Drama", releaseYear := some 2010,
    imdbAverageRating := some 7, imdbNumVotes := none,
    availableCountries := some "US", imdbId := none, type := "movie" }

/-- A raw row with every repairable field missing. -/
def rawM : RawRecord :=
  { title := none, genres := none, releaseYear := none,
    imdbAverageRating := none, imdbNumVotes := none,
    availableCountries := none, imdbId := none, type := "movie" }

/-- Witness for C3 on the concrete two-row input `[rawP, rawM]` (one
fully-present row, one fully-missing row). -/
theorem C3_normalization_fields_witness :
    presentYears [rawP, rawM] ≠ [] ∧ presentRatings [rawP, rawM] ≠ [] ∧
    List.Forall₂ (fun (r : RawRecord) (n : Record) =>
      n.title = r.title.getD "Unknown Title" ∧
      n.genres = r.genres.getD "Unknown Genre" ∧
      n.availableCountries = r.availableCountries.getD "Unknown Country" ∧
      (r.releaseYear = none →
        n.releaseYear = ratTruncToInt (medianQ (presentYears [rawP, rawM]))) ∧
      (∀ y, r.releaseYear = some y → n.releaseYear = ratTruncToInt y) ∧
      (r.imdbAverageRating = none →
        n.imdbAverageRating = meanQ (presentRatings [rawP, rawM])) ∧
      (∀ q, r.imdbAverageRating = some q → n.imdbAverageRating = q))
      [rawP, rawM] (normalize [rawP, rawM]) :=
  ⟨by decide, by decide,
    C3_normalization_fields [rawP, rawM] (by decide) (by decide)⟩

/-- A readable raw row whose `releaseYear` is missing while the rest is
present; alone in a catalog it makes the year median `NaN` and the
`astype(int)` cast fail. -/
def rawNoYear : RawRecord :=
  { title := some "X", genres := some "Drama", releaseYear := none,
    imdbAverageRating := some 7, imdbNumVotes := none,
    availableCountries := some "US", imdbId := none, type := "movie" }

/-- C5 counterexample: On the readable one-row input whose
`releaseYear` is missing, normalization does *not* substitute defaults
and succeed: the catalog-wide median of no present years is `NaN`,
`astype(int)` raises on it inside the `try`, and `load_data` returns
the empty catalog with the error signalled — even though the input
source was perfectly readable (not `none`). -/
theorem C5_counterexample :
    load_data (some [rawNoYear]) = ([], true) ∧
    ¬ (∃ raws, (some [rawNoYear] : Option (List RawRecord)) = some raws ∧
        load_data (some [rawNoYear]) = (normalize raws, false)) ∧
    (some [rawNoYear] : Option (List RawRecord)) ≠ none := by
  have h1 : load_data (some [rawNoYear]) = ([], true) := rfl
  refine ⟨h1, ?_, by simp⟩
  rintro ⟨raws, -, hl⟩
  rw [h1] at hl
  exact Bool.noConfusion (congrArg Prod.snd hl)

/-- C5 amended: `load_data` is total and never aborts: it either
substitutes defaults and succeeds (with no error signalled), or
returns an empty catalog with a `LoadError` signalled — and the error
case occurs exactly when the source is entirely unreadable, or the
catalog is non-empty with every `releaseYear` missing (the median
fallback is then unavailable and the integer cast fails inside the
protected region). -/
theorem C5_load_never_aborts (inp : Option (List RawRecord)) :
    (∃ raws, inp = some raws ∧ (raws = [] ∨ presentYears raws ≠ []) ∧
      load_data inp = (normalize raws, false)) ∨
    (load_data inp = ([], true) ∧
      (inp = none ∨
        ∃ raws, inp = some raws ∧ raws ≠ [] ∧ presentYears raws = [])) := by
  rcases inp with _ | raws
  · exact Or.inr ⟨rfl, Or.inl rfl⟩
  · by_cases hc : (!raws.isEmpty && (presentYears raws).isEmpty) = true
    · right
      rw [Bool.and_eq_true, Bool.not_eq_true', List.isEmpty_eq_false,
        List.isEmpty_iff] at hc
      refine ⟨?_, Or.inr ⟨raws, rfl, hc.1, hc.2⟩⟩
      simp [load_data, normalizeE, hc.1, hc.2]
    · left
      rw [Bool.and_eq_true, Bool.not_eq_true', List.isEmpty_eq_false,
        List.isEmpty_iff] at hc
      push_neg at hc
      refine ⟨raws, rfl, ?_, ?_⟩
      · rcases Classical.em (raws = []) with h | h
        · exact Or.inl h
        · exact Or.inr (hc h)
      · have : (!raws.isEmpty && (presentYears raws).isEmpty) = false := by
          rcases Classical.em (raws = []) with h | h
          · simp [h]
          · simp [List.isEmpty_iff, h, hc h]
        simp [load_data, normalizeE, this]

/-- C8: confirmed. Normalization is idempotent: a catalog that is the
(successful) result of normalization, read back as raw rows, passes
normalization unchanged — every field is present, so no sentinel,
median or mean fallback fires, and truncating the already-integer year
returns it. -/
theorem C8_normalization_idempotent (raws : List RawRecord)
    (cat : List Record) (h : normalizeE raws = .ok cat) :
    normalizeE (catalogToRaw cat) = .ok cat := by
  clear h
  unfold normalizeE
  rcases hcat : cat with _ | ⟨r, rs⟩
  · rfl
  · rw [if_neg, normalize_catalogToRaw]
    simp [catalogToRaw, presentYears, toRaw]

/-- The normalized form of `rawP`. -/
def recP : Record :=
  { title := "A", genres := "Drama", releaseYear := 2010,
    imdbAverageRating := 7, imdbNumVotes := none,
    availableCountries := "US", imdbId := none, type := "movie" }

/-- Witness for C8: normalizing the one-row catalog obtained from
normalizing `[rawP]` leaves it unchanged. -/
theorem C8_normalization_idempotent_witness :
    normalizeE (catalogToRaw [recP]) = .ok [recP] :=
  C8_normalization_idempotent [rawP] [recP] rfl

/-- Folding `min` only lowers the accumulator. -/
theorem foldl_min_le_init (ys : List ℚ) (a : ℚ) : ys.foldl min a ≤ a := by
  induction ys generalizing a with
  | nil => exact le_refl a
  | cons y ys ih => exact (ih (min a y)).trans (min_le_left a y)

/-- The `min`-fold is below every list element. -/
theorem foldl_min_le_mem (ys : List ℚ) (a x : ℚ) (hx : x ∈ ys) :
    ys.foldl min a ≤ x := by
  induction ys generalizing a with
  | nil => cases hx
  | cons y ys ih =>
    rcases List.mem_cons.mp hx with rfl | hx'
    · exact (foldl_min_le_init ys (min a x)).trans (min_le_right a x)
    · exact ih (min a y) hx'

/-- Folding `max` only raises the accumulator. -/
theorem le_foldl_max_init (ys : List ℚ) (a : ℚ) : a ≤ ys.foldl max a := by
  induction ys generalizing a with
  | nil => exact le_refl a
  | cons y ys ih => exact (le_max_left a y).trans (ih (max a y))

/-- The `max`-fold is above every list element. -/
theorem mem_le_foldl_max (ys : List ℚ) (a x : ℚ) (hx : x ∈ ys) :
    x ≤ ys.foldl max a := by
  induction ys generalizing a with
  | nil => cases hx
  | cons y ys ih =>
    rcases List.mem_cons.mp hx with rfl | hx'
    · exact (le_max_right a x).trans (le_foldl_max_init ys (max a x))
    · exact ih (max a y) hx'

/-- Lemma: `colMin` bounds every element from below. -/
theorem colMin_le (l : List ℚ) (x : ℚ) (hx : x ∈ l) : colMin l ≤ x := by
  rcases l with _ | ⟨y, ys⟩
  · cases hx
  · rcases List.mem_cons.mp hx with rfl | hx'
    · exact foldl_min_le_init ys x
    · exact foldl_min_le_mem ys y x hx'

/-- Lemma: `colMax` bounds every element from above. -/
theorem le_colMax (l : List ℚ) (x : ℚ) (hx : x ∈ l) : x ≤ colMax l := by
  rcases l with _ | ⟨y, ys⟩
  · cases hx
  · rcases List.mem_cons.mp hx with rfl | hx'
    · exact le_foldl_max_init ys x
    · exact mem_le_foldl_max ys y x hx'

/-- The histogram range of a non-empty column is a proper interval
containing every element: either the observed `[min, max]` with
`min < max`, or, when all values coincide, the numpy-expanded
`[v − 0.5, v + 0.5]`. -/
theorem histRange_spec (l : List ℚ) (hne : l ≠ []) :
    (histRange l).1 < (histRange l).2 ∧
    ∀ x ∈ l, (histRange l).1 ≤ x ∧ x ≤ (histRange l).2 := by
  have hmem : colMin l ≤ colMax l := by
    rcases l with _ | ⟨y, ys⟩
    · exact absurd rfl hne
    · exact (colMin_le (y :: ys) y (List.mem_cons_self y ys)).trans
        (le_colMax (y :: ys) y (List.mem_cons_self y ys))
  unfold histRange
  by_cases heq : (colMin l == colMax l) = true
  · rw [if_pos heq]
    rw [beq_iff_eq] at heq
    have h05 : (0.5 : ℚ) = 1 / 2 := by norm_num
    refine ⟨by show colMin l - 0.5 < colMax l + 0.5; rw [h05]; linarith,
      fun x hx => ?_⟩
    have h1 := colMin_le l x hx
    have h2 := le_colMax l x hx
    have h2' : x ≤ colMin l := heq ▸ h2
    constructor
    · show colMin l - 0.5 ≤ x
      rw [h05]; linarith
    · show x ≤ colMax l + 0.5
      rw [h05]; linarith
  · rw [if_neg heq]
    rw [beq_iff_eq] at heq
    exact ⟨lt_of_le_of_ne hmem heq, fun x hx => ⟨colMin_le l x hx, le_colMax l x hx⟩⟩

/-- The left edge of bucket `c` is at most `x` iff `c` is at most the
scaled offset `(x − lo)·n/(hi − lo)`. -/
theorem edge_le_iff (lo hi x c : ℚ) (n : ℕ) (hw : 0 < hi - lo)
    (hnq : (0:ℚ) < n) :
    lo + c * ((hi - lo) / n) ≤ x ↔ c ≤ (x - lo) * n / (hi - lo) := by
  rw [← le_sub_iff_add_le', mul_div_assoc', div_le_iff₀ hnq, le_div_iff₀ hw]

/-- `x` is strictly left of the edge of bucket `c` iff the scaled
offset is strictly below `c`. -/
theorem lt_edge_iff (lo hi x c : ℚ) (n : ℕ) (hw : 0 < hi - lo)
    (hnq : (0:ℚ) < n) :
    x < lo + c * ((hi - lo) / n) ↔ (x - lo) * n / (hi - lo) < c := by
  rw [← sub_lt_iff_lt_add', mul_div_assoc', lt_div_iff₀ hnq, div_lt_iff₀ hw]

/-- Every bucket index is below the bucket count. -/
theorem bucketIndex_lt (lo hi : ℚ) (n : Nat) (hn : 0 < n) (x : ℚ) :
    bucketIndex lo hi n x < n :=
  lt_of_le_of_lt (min_le_left _ _) (Nat.sub_lt hn Nat.one_pos)

/-- Bin membership: for `x ∈ [lo, hi]` the assigned bucket `i`
satisfies `edge i ≤ x`, and either `x < edge (i+1)` or `x` is the
maximum `hi` sitting in the last bucket `n − 1`. -/
theorem bucketIndex_mem (lo hi : ℚ) (n : Nat) (hn : 0 < n)
    (hlt : lo < hi) (x : ℚ) (hx1 : lo ≤ x) (hx2 : x ≤ hi) :
    bucketEdge lo hi n (bucketIndex lo hi n x) ≤ x ∧
    (x < bucketEdge lo hi n (bucketIndex lo hi n x + 1) ∨
      (bucketIndex lo hi n x = n - 1 ∧ x = hi)) := by
  have hw : (0:ℚ) < hi - lo := sub_pos.mpr hlt
  have hnq : (0:ℚ) < n := by exact_mod_cast hn
  set t := (x - lo) * n / (hi - lo) with ht
  have ht0 : 0 ≤ t := div_nonneg
    (mul_nonneg (sub_nonneg.mpr hx1) hnq.le) hw.le
  rcases eq_or_lt_of_le hx2 with hxe | hxe
  · -- x = hi : the maximum goes to the last bucket
    have htn : t = n := by
      rw [ht, hxe, div_eq_iff hw.ne']
      ring
    have hfl : ⌊t⌋ = (n : Int) := by rw [htn, Int.floor_natCast]
    have hidx : bucketIndex lo hi n x = n - 1 := by
      unfold bucketIndex
      rw [← ht, hfl]
      simp [Nat.min_def, Nat.sub_le]
    refine ⟨?_, Or.inr ⟨hidx, hxe⟩⟩
    rw [hidx, bucketEdge, edge_le_iff lo hi x _ n hw hnq, ← ht, htn]
    have : ((n - 1 : Nat) : ℚ) ≤ (n : ℚ) := by
      exact_mod_cast Nat.sub_le n 1
    linarith
  · -- x < hi : the bucket is ⌊t⌋ with t < n
    have htn : t < n := by
      rw [ht, div_lt_iff₀ hw]
      calc (x - lo) * n < (hi - lo) * n :=
        mul_lt_mul_of_pos_right (sub_lt_sub_right hxe lo) hnq
      _ = n * (hi - lo) := mul_comm _ _
    have hfl0 : 0 ≤ ⌊t⌋ := Int.floor_nonneg.mpr ht0
    have hfln : ⌊t⌋ < (n : Int) := Int.floor_lt.mpr (by exact_mod_cast htn)
    have hidx : bucketIndex lo hi n x = ⌊t⌋.toNat := by
      unfold bucketIndex
      rw [← ht]
      have : ⌊t⌋.toNat ≤ n - 1 := by omega
      exact min_eq_right this
    have hcast : ((⌊t⌋.toNat : Nat) : ℚ) = ((⌊t⌋ : Int) : ℚ) := by
      exact_mod_cast congrArg (fun z : Int => (z : ℚ)) (Int.toNat_of_nonneg hfl0)
    constructor
    · rw [hidx, bucketEdge, edge_le_iff lo hi x _ n hw hnq, ← ht, hcast]
      exact Int.floor_le t
    · left
      rw [hidx, bucketEdge, lt_edge_iff lo hi x _ n hw hnq, ← ht]
      push_cast [hcast]
      exact Int.lt_floor_add_one t

/-- Bin uniqueness: any bucket `j` whose half-open range (closed at
`hi` for the last bucket) contains `x` is the assigned bucket. -/
theorem bucketIndex_unique (lo hi : ℚ) (n : Nat) (hn : 0 < n)
    (hlt : lo < hi) (x : ℚ) (hx1 : lo ≤ x) (hx2 : x ≤ hi)
    (j : Nat) (hj : j < n)
    (h1 : bucketEdge lo hi n j ≤ x)
    (h2 : x < bucketEdge lo hi n (j + 1) ∨ (j = n - 1 ∧ x = hi)) :
    j = bucketIndex lo hi n x := by
  have hw : (0:ℚ) < hi - lo := sub_pos.mpr hlt
  have hnq : (0:ℚ) < n := by exact_mod_cast hn
  set t := (x - lo) * n / (hi - lo) with ht
  have hjt : (j : ℚ) ≤ t := by
    rw [ht]
    exact (edge_le_iff lo hi x _ n hw hnq).mp h1
  rcases h2 with h2 | ⟨hj', hxe⟩
  · have htj : t < (j : ℚ) + 1 := by
      have := (lt_edge_iff lo hi x _ n hw hnq).mp h2
      rw [← ht] at this
      push_cast at this
      linarith
    have hfl : ⌊t⌋ = (j : Int) := by
      rw [Int.floor_eq_iff]
      constructor
      · exact_mod_cast hjt
      · push_cast
        exact htj
    unfold bucketIndex
    rw [← ht, hfl, Int.toNat_natCast]
    exact (min_eq_right (by omega)).symm
  · have htn : t = n := by
      rw [ht, hxe, div_eq_iff hw.ne']
      ring
    have hfl : ⌊t⌋ = (n : Int) := by rw [htn, Int.floor_natCast]
    unfold bucketIndex
    rw [← ht, hfl, Int.toNat_natCast, hj']
    exact (min_eq_left (Nat.sub_le n 1)).symm

/-- Sum of a list-range map equals the corresponding finite sum. -/
theorem list_range_map_sum (g : Nat → Nat) (n : Nat) :
    ((List.range n).map g).sum = ∑ i ∈ Finset.range n, g i := by
  induction n with
  | zero => rfl
  | succ m ih =>
    rw [List.range_succ, List.map_append, List.sum_append,
      Finset.sum_range_succ, ih]
    simp

/-- Counting a list fiberwise over all values of a bounded index
function recovers its length. -/
theorem sum_countP_range {α : Type} (l : List α) (f : α → Nat) (n : Nat)
    (h : ∀ x ∈ l, f x < n) :
    (∑ i ∈ Finset.range n, l.countP (fun x => decide (f x = i)))
      = l.length := by
  induction l with
  | nil => simp
  | cons x xs ih =>
    have hx : f x < n := h x (List.mem_cons_self x xs)
    simp only [List.countP_cons]
    rw [Finset.sum_add_distrib,
      ih (fun y hy => h y (List.mem_cons_of_mem x hy))]
    simp only [decide_eq_true_eq]
    rw [Finset.sum_ite_eq]
    simp [Finset.mem_range.mpr hx]

/-- C9 counterexample: For ratings {1, 2, 3} in 2 buckets the
observed range is [1, 3] and the value 2 is an interior bucket
boundary (it is the left edge of bucket 1, i.e. the upper end of
bucket 0's range) and is not the maximum; the claim's rule "boundary
values fall into the lower-ranged bucket" demands bucket 0, but the
histogram places it in bucket 1: numpy bins are half-open `[a, b)`, so
a boundary value belongs to the *higher*-ranged bucket.  The counts
come out [1, 2], not the [2, 1] the claimed rule would give. -/
theorem C9_rating_summary_counterexample :
    histRange [1, 2, 3] = (1, 3) ∧
    bucketEdge 1 3 2 1 = 2 ∧
    ((2:ℚ) ≠ 3) ∧
    bucketIndex 1 3 2 2 = 1 ∧
    bucketIndex 1 3 2 2 ≠ 0 ∧
    bucketCounts [1, 2, 3] 2 = [1, 2] := by
  refine ⟨?_, ?_, by norm_num, ?_, ?_, ?_⟩
  · norm_num [histRange, colMin, colMax, min_def, max_def]
  · norm_num [bucketEdge]
  · norm_num [bucketIndex]
  · norm_num [bucketIndex]
  · norm_num [bucketCounts, bucketIndex, histRange, colMin, colMax, min_def,
      max_def, List.filter_cons, List.filter_nil, List.range_succ]
    decide

/-- C9 amended: For every non-empty rating column and positive
`bucketCount`, the Rating Summary partitions the observed interval
`[min, max]` (expanded by numpy to `[min − 0.5, max + 0.5]` when
`min = max`) into `bucketCount` equal-width buckets; every rating
falls into exactly one bucket — a bucket-boundary value belongs to the
*higher*-ranged bucket (the one whose range starts at that value),
except the maximum, which belongs to the last bucket — and the bucket
counts sum exactly to the number of input records.  Determinism is
immediate, `bucketCounts` being a function of the catalog and
`bucketCount` alone. -/
theorem C9_rating_summary (ratings : List ℚ) (n : Nat)
    (hne : ratings ≠ []) (hn : 0 < n) :
    (bucketCounts ratings n).sum = ratings.length ∧
    (∀ x ∈ ratings,
      bucketIndex (histRange ratings).1 (histRange ratings).2 n x < n ∧
      bucketEdge (histRange ratings).1 (histRange ratings).2 n
        (bucketIndex (histRange ratings).1 (histRange ratings).2 n x) ≤ x ∧
      (x < bucketEdge (histRange ratings).1 (histRange ratings).2 n
          (bucketIndex (histRange ratings).1 (histRange ratings).2 n x + 1) ∨
        (bucketIndex (histRange ratings).1 (histRange ratings).2 n x = n - 1 ∧
          x = (histRange ratings).2)) ∧
      ∀ j, j < n →
        bucketEdge (histRange ratings).1 (histRange ratings).2 n j ≤ x →
        (x < bucketEdge (histRange ratings).1 (histRange ratings).2 n (j + 1) ∨
          (j = n - 1 ∧ x = (histRange ratings).2)) →
        j = bucketIndex (histRange ratings).1 (histRange ratings).2 n x) := by
  obtain ⟨hlt, hmem⟩ := histRange_spec ratings hne
  constructor
  · unfold bucketCounts
    rw [list_range_map_sum]
    calc (∑ i ∈ Finset.range n,
          (ratings.filter (fun x => decide
            (bucketIndex (histRange ratings).1 (histRange ratings).2 n x = i))).length)
        = ∑ i ∈ Finset.range n, ratings.countP (fun x => decide
            (bucketIndex (histRange ratings).1 (histRange ratings).2 n x = i)) := by
          refine Finset.sum_congr rfl (fun i _ => ?_)
          rw [List.countP_eq_length_filter]
      _ = ratings.length := sum_countP_range ratings _ n
          (fun x _ => bucketIndex_lt _ _ n hn x)
  · intro x hx
    obtain ⟨hx1, hx2⟩ := hmem x hx
    obtain ⟨hlow, hhigh⟩ :=
      bucketIndex_mem (histRange ratings).1 (histRange ratings).2 n hn hlt x hx1 hx2
    exact ⟨bucketIndex_lt _ _ n hn x, hlow, hhigh,
      fun j hj h1 h2 =>
        bucketIndex_unique (histRange ratings).1 (histRange ratings).2 n hn hlt
          x hx1 hx2 j hj h1 h2⟩

/-- Witness for C9 on the concrete ratings {1, 2, 3} with 2 buckets:
the counts sum to the record count 3. -/
theorem C9_rating_summary_witness :
    ([1, 2, 3] : List ℚ) ≠ [] ∧ 0 < 2 ∧
    (bucketCounts [1, 2, 3] 2).sum = ([1, 2, 3] : List ℚ).length :=
  ⟨by decide, by decide, (C9_rating_summary [1, 2, 3] 2 (by decide) (by decide)).1⟩

end HuluExplorer
